import Mathlib

/-!
Shallow embedding of the `limit-sarscov2` crate
(multi-intent SARS-CoV-2 knowledge graph) and proofs of its
specification claims.

Modelling conventions:
* `Uuid` is modelled as `Nat`; the Rust constructors call `Uuid::new_v4()`,
  so the embedded constructors take the fresh identifier as an explicit
  argument supplied by the environment.
* `chrono::Utc::now().to_rfc3339()` timestamps are likewise explicit
  `String` arguments.
* Rust `f32` quantities are modelled as `ℚ` where the code only moves
  them around (weights, confidences) and as `ℝ` where the code applies
  `ln` (Shannon entropy).
* `HashMap<Uuid, V>` registries are modelled as association lists with
  insert-or-overwrite (`insertAssoc`); `HashMap<HypothesisType, usize>`
  is modelled as a total function defaulting to 0 (a key is "present"
  iff its count is positive, which matches `entry().or_insert(0) += 1`);
  `HashSet<String>` is modelled as a duplicate-free list.
-/

namespace SarsCov2KG

abbrev Uuid := Nat

/-! ### nodes.rs -/

structure VirusNode where
  id : Uuid
  name : String
  genome_kb : ℚ
deriving DecidableEq

structure VirologyNode where
  id : Uuid
  topic : String
  details : String
deriving DecidableEq

structure ImmunologyNode where
  id : Uuid
  topic : String
  details : String
deriving DecidableEq

structure GenomicsNode where
  id : Uuid
  variant : String
  mutations : List String
deriving DecidableEq

structure TreatmentNode where
  id : Uuid
  therapy : String
  mechanism : String
deriving DecidableEq

structure PublicHealthNode where
  id : Uuid
  policy : String
  effect : String
deriving DecidableEq

/-! ### domain.rs -/

inductive ResearchDomain where
  | Virology
  | Immunology
  | Genomics
  | Treatment
  | PublicHealth
deriving DecidableEq

/-- Rendering of `format!("{:?}", domain)` for the derived `Debug` of
`ResearchDomain` (used by `add_node` to populate `domains_covered`). -/
def ResearchDomain.debugName : ResearchDomain → String
  | .Virology => "Virology"
  | .Immunology => "Immunology"
  | .Genomics => "Genomics"
  | .Treatment => "Treatment"
  | .PublicHealth => "PublicHealth"

structure SarsCov2Graph where
  id : Uuid
  root : VirusNode
  virology : List VirologyNode
  immunology : List ImmunologyNode
  genomics : List GenomicsNode
  treatment : List TreatmentNode
  public_health : List PublicHealthNode
deriving DecidableEq

/-- `SarsCov2Graph::new`. -/
def SarsCov2Graph.new (fresh_id : Uuid) (root : VirusNode) : SarsCov2Graph :=
  { id := fresh_id
    root := root
    virology := []
    immunology := []
    genomics := []
    treatment := []
    public_health := [] }

/-! ### edges.rs -/

inductive EdgeType where
  | Causal
  | Correlative
  | Mechanistic
  | Temporal
  | Inhibitory
deriving DecidableEq

structure EdgeMetadata where
  source_domain : String
  target_domain : String
  evidence_refs : List String
  confidence : ℚ
  created_at : String
deriving DecidableEq

structure GraphEdge where
  id : Uuid
  edge_type : EdgeType
  source_id : Uuid
  target_id : Uuid
  label : String
  weight : ℚ
  metadata : EdgeMetadata
deriving DecidableEq

/-- `GraphEdge::new_causal`: the weight is the confidence, taken directly. -/
def GraphEdge.new_causal (fresh_id : Uuid) (source_id target_id : Uuid)
    (label source_domain target_domain : String)
    (evidence_refs : List String) (confidence : ℚ) (now : String) : GraphEdge :=
  { id := fresh_id
    edge_type := EdgeType.Causal
    source_id := source_id
    target_id := target_id
    label := label
    weight := confidence
    metadata :=
      { source_domain := source_domain
        target_domain := target_domain
        evidence_refs := evidence_refs
        confidence := confidence
        created_at := now } }

/-- `GraphEdge::new_correlative`: the weight is `correlation.abs()`. -/
def GraphEdge.new_correlative (fresh_id : Uuid) (source_id target_id : Uuid)
    (label source_domain target_domain : String)
    (evidence_refs : List String) (correlation : ℚ) (now : String) : GraphEdge :=
  { id := fresh_id
    edge_type := EdgeType.Correlative
    source_id := source_id
    target_id := target_id
    label := label
    weight := |correlation|
    metadata :=
      { source_domain := source_domain
        target_domain := target_domain
        evidence_refs := evidence_refs
        confidence := |correlation|
        created_at := now } }

/-- `GraphEdge::is_cross_domain`: exact string comparison of the recorded
source and target domain labels. -/
def GraphEdge.is_cross_domain (e : GraphEdge) : Bool :=
  decide (e.metadata.source_domain ≠ e.metadata.target_domain)

/-! ### serendipity_trace.rs -/

inductive HypothesisType where
  | Transmissibility
  | VaccineEfficacy
  | ImmuneEscape
  | TreatmentResponse
  | PublicHealthImpact
deriving DecidableEq, Fintype

structure ExplorationStep where
  id : Uuid
  step_number : Nat
  hypothesis : HypothesisType
  query : String
  domains_explored : List String
  evidence_found : Nat
  confidence : ℚ
  timestamp : String
deriving DecidableEq

structure SerendipityTrace where
  id : Uuid
  session_id : String
  question : String
  steps : List ExplorationStep
  hypotheses_explored : HypothesisType → Nat
  total_evidence : Nat
  cross_domain_jumps : Nat
  created_at : String

/-- `SerendipityTrace::new`. -/
def SerendipityTrace.new (fresh_id : Uuid) (session_id question now : String) :
    SerendipityTrace :=
  { id := fresh_id
    session_id := session_id
    question := question
    steps := []
    hypotheses_explored := fun _ => 0
    total_evidence := 0
    cross_domain_jumps := 0
    created_at := now }

/-- `SerendipityTrace::add_step`: bump the hypothesis-type bucket, add the
evidence, bump `cross_domain_jumps` when the previous step's
`domains_explored` differs (Vec equality: order-sensitive), append the step. -/
def SerendipityTrace.add_step (t : SerendipityTrace) (step : ExplorationStep) :
    SerendipityTrace :=
  { t with
    hypotheses_explored := fun h =>
      if h = step.hypothesis then t.hypotheses_explored h + 1
      else t.hypotheses_explored h
    total_evidence := t.total_evidence + step.evidence_found
    cross_domain_jumps :=
      match t.steps.getLast? with
      | some prev =>
          if prev.domains_explored ≠ step.domains_explored then
            t.cross_domain_jumps + 1
          else t.cross_domain_jumps
      | none => t.cross_domain_jumps
    steps := t.steps ++ [step] }

/-- `SerendipityTrace::diversity_score`: Shannon entropy (natural log) of the
hypothesis-type histogram normalized by step count; 0 when there are no
steps.  The Rust loop runs over the values stored in the `HashMap`; a key is
stored iff its count is positive, which the `p > 0` guard reproduces. -/
noncomputable def SerendipityTrace.diversity_score (t : SerendipityTrace) : ℝ :=
  let total : ℝ := t.steps.length
  if total = 0 then 0
  else
    Finset.univ.sum fun h : HypothesisType =>
      let p : ℝ := (t.hypotheses_explored h : ℝ) / total
      if p > 0 then -(p * Real.log p) else 0

/-- `SerendipityTrace::exploration_depth`. -/
def SerendipityTrace.exploration_depth (t : SerendipityTrace) : Nat :=
  t.steps.length

/-- A trace built from `SerendipityTrace::new` by a sequence of
`add_step` calls. -/
def buildTrace (fresh_id : Uuid) (session_id question now : String)
    (steps : List ExplorationStep) : SerendipityTrace :=
  steps.foldl SerendipityTrace.add_step
    (SerendipityTrace.new fresh_id session_id question now)

/-! ### multi_intent_graph.rs -/

/-- Modelled from the spec: `crate::rd::RDCurve` has no source file in the
repository snapshot; the spec treats the rate-distortion curve as a value
"accepted and returned unmodified, keyed by an intent label string" and
"never inspected by the core", so it is embedded as an abstract marker. -/
structure RDCurve where
  mk ::
deriving DecidableEq

structure NodeMetadata where
  evidence_count : Nat
  confidence : ℚ
  sources : List String
  created_at : String
deriving DecidableEq

inductive NodeContent where
  | Biology (v : VirologyNode)
  | Immunology (i : ImmunologyNode)
  | Variant (g : GenomicsNode)
  | Treatment (t : TreatmentNode)
  | PublicHealth (p : PublicHealthNode)
deriving DecidableEq

structure IntentNode where
  id : Uuid
  intent : String
  domain : ResearchDomain
  content : NodeContent
  metadata : NodeMetadata
deriving DecidableEq

structure HypothesisPath where
  id : Uuid
  hypothesis_type : HypothesisType
  description : String
  node_sequence : List Uuid
  edge_sequence : List Uuid
  total_confidence : ℚ
  evidence_coverage : ℚ
deriving DecidableEq

structure GraphMetadata where
  created_at : String
  last_updated : String
  total_nodes : Nat
  total_edges : Nat
  domains_covered : List String
deriving DecidableEq

structure MultiIntentGraph where
  id : Uuid
  base_graph : SarsCov2Graph
  intent_nodes : List (Uuid × IntentNode)
  edges : List (Uuid × GraphEdge)
  hypothesis_paths : List HypothesisPath
  serendipity_traces : List SerendipityTrace
  rd_curves : List (String × RDCurve)
  metadata : GraphMetadata

/-- `HashMap::insert`: overwrite the value when the key is present,
otherwise add the binding. -/
def insertAssoc {α : Type} (k : Uuid) (v : α) :
    List (Uuid × α) → List (Uuid × α)
  | [] => [(k, v)]
  | (k', v') :: rest =>
      if k' = k then (k, v) :: rest else (k', v') :: insertAssoc k v rest

/-- `HashMap::get`. -/
def lookupAssoc {α : Type} (k : Uuid) : List (Uuid × α) → Option α
  | [] => none
  | (k', v') :: rest => if k' = k then some v' else lookupAssoc k rest

/-- `HashSet::insert`. -/
def hsInsert (x : String) (s : List String) : List String :=
  if x ∈ s then s else x :: s

/-- `MultiIntentGraph::new`. -/
def MultiIntentGraph.new (fresh_id : Uuid) (base_graph : SarsCov2Graph)
    (now : String) : MultiIntentGraph :=
  { id := fresh_id
    base_graph := base_graph
    intent_nodes := []
    edges := []
    hypothesis_paths := []
    serendipity_traces := []
    rd_curves := []
    metadata :=
      { created_at := now
        last_updated := now
        total_nodes := 0
        total_edges := 0
        domains_covered := [] } }

/-- `MultiIntentGraph::add_node`: record the domain label, insert-or-overwrite
by `node.id`, recompute `total_nodes` as the registry's size, refresh the
timestamp. -/
def MultiIntentGraph.add_node (g : MultiIntentGraph) (node : IntentNode)
    (now : String) : MultiIntentGraph :=
  let nodes := insertAssoc node.id node g.intent_nodes
  { g with
    intent_nodes := nodes
    metadata :=
      { g.metadata with
        domains_covered := hsInsert node.domain.debugName
          g.metadata.domains_covered
        total_nodes := nodes.length
        last_updated := now } }

/-- `MultiIntentGraph::add_edge`: insert-or-overwrite by `edge.id`, recompute
`total_edges` as the registry's size, refresh the timestamp. -/
def MultiIntentGraph.add_edge (g : MultiIntentGraph) (edge : GraphEdge)
    (now : String) : MultiIntentGraph :=
  let es := insertAssoc edge.id edge g.edges
  { g with
    edges := es
    metadata :=
      { g.metadata with
        total_edges := es.length
        last_updated := now } }

/-- `MultiIntentGraph::add_trace`. -/
def MultiIntentGraph.add_trace (g : MultiIntentGraph) (trace : SerendipityTrace)
    (now : String) : MultiIntentGraph :=
  { g with
    serendipity_traces := g.serendipity_traces ++ [trace]
    metadata := { g.metadata with last_updated := now } }

/-- `edges.values()` of the registry. -/
def MultiIntentGraph.edgeValues (g : MultiIntentGraph) : List GraphEdge :=
  g.edges.map Prod.snd

/-- `MultiIntentGraph::edges_by_type`. -/
def MultiIntentGraph.edges_by_type (g : MultiIntentGraph) (edge_type : EdgeType) :
    List GraphEdge :=
  g.edgeValues.filter fun e => decide (e.edge_type = edge_type)

/-- `MultiIntentGraph::cross_domain_edges`. -/
def MultiIntentGraph.cross_domain_edges (g : MultiIntentGraph) : List GraphEdge :=
  g.edgeValues.filter fun e => e.is_cross_domain

/-- `MultiIntentGraph::dfs_paths`.  The Rust recursion is bounded by the
`path.len() > max_depth` guard; the embedding adds an explicit `fuel`
argument, and `find_paths` supplies `max_depth + 1` fuel, which is never
exhausted before the guard fires (a call at fuel 0 has a path of length
`max_depth + 2`, which the guard would reject anyway). -/
def dfsPaths (edges : List GraphEdge) (target : Uuid) (max_depth : Nat) :
    Nat → Uuid → List Uuid → List Uuid → List (List Uuid)
  | 0, _, _, _ => []
  | fuel + 1, current, path, visited =>
      if path.length > max_depth then []
      else if current = target then [path]
      else
        let visited' := current :: visited
        (edges.filter fun e =>
            decide (e.source_id = current) && decide (e.target_id ∉ visited')).flatMap
          fun e =>
            dfsPaths edges target max_depth fuel e.target_id
              (path ++ [e.target_id]) visited'

/-- `MultiIntentGraph::find_paths`. -/
def MultiIntentGraph.find_paths (g : MultiIntentGraph)
    (start_id end_id : Uuid) (max_depth : Nat) : List (List Uuid) :=
  dfsPaths g.edgeValues end_id max_depth (max_depth + 1) start_id [start_id] []

structure GraphStatistics where
  total_nodes : Nat
  total_edges : Nat
  causal_edges : Nat
  correlative_edges : Nat
  cross_domain_edges : Nat
  hypothesis_paths : Nat
  serendipity_traces : Nat
  avg_trace_diversity : ℝ
  domains_covered : Nat

/-- `MultiIntentGraph::statistics`. -/
noncomputable def MultiIntentGraph.statistics (g : MultiIntentGraph) :
    GraphStatistics :=
  { total_nodes := g.metadata.total_nodes
    total_edges := g.metadata.total_edges
    causal_edges := (g.edges_by_type EdgeType.Causal).length
    correlative_edges := (g.edges_by_type EdgeType.Correlative).length
    cross_domain_edges := g.cross_domain_edges.length
    hypothesis_paths := g.hypothesis_paths.length
    serendipity_traces := g.serendipity_traces.length
    avg_trace_diversity :=
      if g.serendipity_traces.isEmpty then 0
      else (g.serendipity_traces.map SerendipityTrace.diversity_score).sum /
        (g.serendipity_traces.length : ℝ)
    domains_covered := g.metadata.domains_covered.length }

/-- A mutation applied to the graph store (for stating invariants over
arbitrary interleavings of `add_node` and `add_edge`). -/
inductive GraphOp where
  | addNode (n : IntentNode) (now : String)
  | addEdge (e : GraphEdge) (now : String)

def applyOp (g : MultiIntentGraph) : GraphOp → MultiIntentGraph
  | .addNode n now => g.add_node n now
  | .addEdge e now => g.add_edge e now

def applyOps (g : MultiIntentGraph) (ops : List GraphOp) : MultiIntentGraph :=
  ops.foldl applyOp g

/-- The node identifiers inserted by a list of operations, in order. -/
def nodeIdsOf (ops : List GraphOp) : List Uuid :=
  ops.filterMap fun op =>
    match op with
    | .addNode n _ => some n.id
    | .addEdge _ _ => none

/-! ### Association-list (HashMap) lemmas -/

lemma insertAssoc_keys {α : Type} (k : Uuid) (v : α) (l : List (Uuid × α)) :
    (insertAssoc k v l).map Prod.fst =
      if k ∈ l.map Prod.fst then l.map Prod.fst
      else l.map Prod.fst ++ [k] := by
  induction l with
  | nil => simp [insertAssoc]
  | cons p rest ih =>
      obtain ⟨k', v'⟩ := p
      by_cases hk : k' = k
      · subst hk
        simp [insertAssoc]
      · have hk2 : ¬(k = k') := fun e => hk e.symm
        by_cases hm : k ∈ rest.map Prod.fst
        · simp [insertAssoc, hk, ih, hm, hk2]
        · simp [insertAssoc, hk, ih, hm, hk2]

lemma insertAssoc_keys_nodup {α : Type} (k : Uuid) (v : α)
    (l : List (Uuid × α)) (h : (l.map Prod.fst).Nodup) :
    ((insertAssoc k v l).map Prod.fst).Nodup := by
  rw [insertAssoc_keys]
  by_cases hm : k ∈ l.map Prod.fst
  · simpa [hm] using h
  · simp only [hm, if_false]
    simp [List.nodup_append, h, hm]

lemma insertAssoc_length {α : Type} (k : Uuid) (v : α) (l : List (Uuid × α)) :
    (insertAssoc k v l).length =
      if k ∈ l.map Prod.fst then l.length else l.length + 1 := by
  have h := congrArg List.length (insertAssoc_keys k v l)
  simp only [List.length_map] at h
  rw [h]
  by_cases hm : k ∈ l.map Prod.fst <;> simp [hm]

lemma insertAssoc_keys_toFinset {α : Type} (k : Uuid) (v : α)
    (l : List (Uuid × α)) :
    ((insertAssoc k v l).map Prod.fst).toFinset =
      insert k (l.map Prod.fst).toFinset := by
  rw [insertAssoc_keys]
  by_cases hm : k ∈ l.map Prod.fst
  · rw [if_pos hm]
    exact (Finset.insert_eq_self.mpr (List.mem_toFinset.mpr hm)).symm
  · rw [if_neg hm]
    simp [List.toFinset_append, Finset.union_comm, ← Finset.insert_eq]

lemma lookupAssoc_insertAssoc {α : Type} (k : Uuid) (v : α)
    (l : List (Uuid × α)) :
    lookupAssoc k (insertAssoc k v l) = some v := by
  induction l with
  | nil => simp [insertAssoc, lookupAssoc]
  | cons p rest ih =>
      obtain ⟨k', v'⟩ := p
      by_cases hk : k' = k <;> simp [insertAssoc, lookupAssoc, hk, ih]

/-! ### Graph-store invariant lemmas -/

/-- The node-registry invariant maintained by the mutators: the registry's
keys are duplicate-free and `total_nodes` is the registry's size. -/
def graphNodesInv (g : MultiIntentGraph) : Prop :=
  ((g.intent_nodes.map Prod.fst).Nodup) ∧
  g.metadata.total_nodes = g.intent_nodes.length

lemma applyOp_nodesInv (g : MultiIntentGraph) (op : GraphOp)
    (h : graphNodesInv g) : graphNodesInv (applyOp g op) := by
  obtain ⟨h1, h2⟩ := h
  cases op with
  | addNode n now =>
      exact ⟨insertAssoc_keys_nodup n.id n g.intent_nodes h1, rfl⟩
  | addEdge e now =>
      exact ⟨h1, h2⟩

lemma applyOps_nodesInv (ops : List GraphOp) :
    ∀ g : MultiIntentGraph, graphNodesInv g → graphNodesInv (applyOps g ops) := by
  induction ops with
  | nil => intro g h; exact h
  | cons op rest ih =>
      intro g h
      exact ih (applyOp g op) (applyOp_nodesInv g op h)

lemma applyOps_keys_toFinset (ops : List GraphOp) :
    ∀ g : MultiIntentGraph,
      ((applyOps g ops).intent_nodes.map Prod.fst).toFinset =
        (g.intent_nodes.map Prod.fst).toFinset ∪ (nodeIdsOf ops).toFinset := by
  induction ops with
  | nil => intro g; simp [applyOps, nodeIdsOf]
  | cons op rest ih =>
      intro g
      have step : applyOps g (op :: rest) = applyOps (applyOp g op) rest := rfl
      rw [step, ih]
      cases op with
      | addNode n now =>
          simp only [applyOp, MultiIntentGraph.add_node, nodeIdsOf,
            List.filterMap_cons]
          rw [insertAssoc_keys_toFinset]
          simp [nodeIdsOf, Finset.insert_union]
      | addEdge e now =>
          simp [applyOp, MultiIntentGraph.add_edge, nodeIdsOf]

/-! ### Trace lemmas -/

lemma foldl_add_step_steps (steps : List ExplorationStep) :
    ∀ t : SerendipityTrace,
      (steps.foldl SerendipityTrace.add_step t).steps = t.steps ++ steps := by
  induction steps with
  | nil => intro t; simp
  | cons s rest ih =>
      intro t
      simp only [List.foldl_cons, ih, SerendipityTrace.add_step,
        List.append_assoc, List.singleton_append]

lemma foldl_add_step_hist (steps : List ExplorationStep) :
    ∀ (t : SerendipityTrace) (h : HypothesisType),
      (steps.foldl SerendipityTrace.add_step t).hypotheses_explored h =
        t.hypotheses_explored h +
          steps.countP (fun s => decide (s.hypothesis = h)) := by
  induction steps with
  | nil => intro t h; simp
  | cons s rest ih =>
      intro t h
      simp only [List.foldl_cons, ih, SerendipityTrace.add_step,
        List.countP_cons]
      by_cases hh : h = s.hypothesis
      · subst hh
        simp
        omega
      · have hne : ¬(s.hypothesis = h) := fun e => hh e.symm
        simp [hh, hne]

lemma foldl_add_step_evidence (steps : List ExplorationStep) :
    ∀ t : SerendipityTrace,
      (steps.foldl SerendipityTrace.add_step t).total_evidence =
        t.total_evidence + (steps.map ExplorationStep.evidence_found).sum := by
  induction steps with
  | nil => intro t; simp
  | cons s rest ih =>
      intro t
      simp only [List.foldl_cons, ih, SerendipityTrace.add_step, List.map_cons,
        List.sum_cons]
      omega

lemma buildTrace_steps (fid : Uuid) (sid q now : String)
    (steps : List ExplorationStep) :
    (buildTrace fid sid q now steps).steps = steps := by
  simp [buildTrace, foldl_add_step_steps, SerendipityTrace.new]

lemma buildTrace_hist (fid : Uuid) (sid q now : String)
    (steps : List ExplorationStep) (h : HypothesisType) :
    (buildTrace fid sid q now steps).hypotheses_explored h =
      steps.countP (fun s => decide (s.hypothesis = h)) := by
  simp [buildTrace, foldl_add_step_hist, SerendipityTrace.new]

/-! ### Claim theorems about traces -/

/-- The conservation invariant of `SerendipityTrace`: the histogram counts
sum to the number of steps, and `total_evidence` is the sum of the steps'
evidence counts. -/
def traceInvariant (t : SerendipityTrace) : Prop :=
  Finset.univ.sum t.hypotheses_explored = t.steps.length ∧
  t.total_evidence = (t.steps.map ExplorationStep.evidence_found).sum

/-- C9: every trace reachable from `SerendipityTrace::new` by `add_step`
calls satisfies the conservation invariant (histogram counts sum to the step
count; `total_evidence` is the sum of the steps' `evidence_found`), and the
invariant is preserved by every `add_step` call. -/
theorem trace_histogram_evidence_invariant :
    (∀ (fid : Uuid) (sid q now : String) (steps : List ExplorationStep),
        traceInvariant (buildTrace fid sid q now steps)) ∧
    (∀ (t : SerendipityTrace) (s : ExplorationStep),
        traceInvariant t → traceInvariant (t.add_step s)) := by
  have hsum : ∀ (steps : List ExplorationStep),
      (Finset.univ.sum fun h : HypothesisType =>
        steps.countP (fun s => decide (s.hypothesis = h))) = steps.length := by
    intro steps
    induction steps with
    | nil => simp
    | cons s rest ih =>
        simp only [List.countP_cons, List.length_cons]
        rw [Finset.sum_add_distrib, ih]
        have : (Finset.univ.sum fun h : HypothesisType =>
            if s.hypothesis = h then 1 else 0) = 1 := by
          rw [Finset.sum_ite_eq]
          simp
        simp only [decide_eq_true_eq]
        omega
  constructor
  · intro fid sid q now steps
    constructor
    · simp only [buildTrace_steps]
      have := hsum steps
      simpa [buildTrace_hist] using this
    · simp [buildTrace, foldl_add_step_evidence, foldl_add_step_steps,
        SerendipityTrace.new]
  · intro t s ht
    obtain ⟨h1, h2⟩ := ht
    constructor
    · have : (Finset.univ.sum fun h : HypothesisType =>
          (t.add_step s).hypotheses_explored h) =
          (Finset.univ.sum fun h : HypothesisType => t.hypotheses_explored h) +
            1 := by
        have heach : ∀ h : HypothesisType,
            (t.add_step s).hypotheses_explored h =
              t.hypotheses_explored h + (if h = s.hypothesis then 1 else 0) := by
          intro h
          simp only [SerendipityTrace.add_step]
          by_cases hh : h = s.hypothesis <;> simp [hh]
        rw [Finset.sum_congr rfl fun h _ => heach h, Finset.sum_add_distrib]
        congr 1
        rw [Finset.sum_ite_eq']
        simp
      rw [this, h1]
      simp [SerendipityTrace.add_step]
    · simp only [SerendipityTrace.add_step, List.map_append, List.sum_append,
        List.map_cons, List.sum_cons, List.map_nil, List.sum_nil]
      omega

/-- C3: `add_step` bumps `cross_domain_jumps` by exactly one when a previous
step exists and its `domains_explored` list differs (order-sensitively) from
the new step's list; it leaves the counter unchanged when the lists are equal
element-for-element, and a first step never changes the counter. -/
theorem cross_domain_jumps_spec (t : SerendipityTrace) (s : ExplorationStep) :
    (t.steps = [] → (t.add_step s).cross_domain_jumps = t.cross_domain_jumps) ∧
    (∀ prev, t.steps.getLast? = some prev →
      ((prev.domains_explored ≠ s.domains_explored →
          (t.add_step s).cross_domain_jumps = t.cross_domain_jumps + 1) ∧
       (prev.domains_explored = s.domains_explored →
          (t.add_step s).cross_domain_jumps = t.cross_domain_jumps))) := by
  constructor
  · intro hnil
    simp [SerendipityTrace.add_step, hnil]
  · intro prev hprev
    constructor
    · intro hne
      simp [SerendipityTrace.add_step, hprev, hne]
    · intro heq
      simp [SerendipityTrace.add_step, hprev, heq]

/-- C6: a trace built by `add_step` calls whose steps all carry the same
hypothesis type (in particular the empty trace) has `diversity_score` 0. -/
theorem diversity_score_uniform_zero (fid : Uuid) (sid q now : String)
    (steps : List ExplorationStep) (t0 : HypothesisType)
    (hall : ∀ s ∈ steps, s.hypothesis = t0) :
    (buildTrace fid sid q now steps).diversity_score = 0 := by
  unfold SerendipityTrace.diversity_score
  rw [buildTrace_steps]
  by_cases hnil : steps = []
  · simp [hnil]
  · have hlen : (steps.length : ℝ) ≠ 0 := by
      simpa using fun h => hnil (List.length_eq_zero.mp h)
    simp only [hlen, if_neg hlen]
    apply Finset.sum_eq_zero
    intro h _
    by_cases ht : h = t0
    · subst ht
      have hcount : steps.countP (fun s => decide (s.hypothesis = h)) =
          steps.length := by
        apply List.countP_eq_length.mpr
        intro s hs
        simpa using hall s hs
      rw [buildTrace_hist, hcount]
      have hp : ((steps.length : ℕ) : ℝ) / (steps.length : ℝ) = 1 :=
        div_self hlen
      simp only [hp]
      simp
    · have hcount : steps.countP (fun s => decide (s.hypothesis = h)) = 0 := by
        apply List.countP_eq_zero.mpr
        intro s hs
        simp only [hall s hs, decide_eq_true_eq]
        exact fun e => ht e.symm
      rw [buildTrace_hist, hcount]
      simp

/-! ### Claim theorems about edge constructors -/

/-- C7: the causal constructor stores the confidence directly as the weight;
the correlative constructor stores the absolute value of the correlation
coefficient as the weight. -/
theorem constructor_weights (fid s t : Uuid) (lbl sd td : String)
    (refs : List String) (c r : ℚ) (now : String) :
    (GraphEdge.new_causal fid s t lbl sd td refs c now).weight = c ∧
    (GraphEdge.new_correlative fid s t lbl sd td refs r now).weight = |r| :=
  ⟨rfl, rfl⟩

/-- C8: `is_cross_domain` holds exactly when the recorded source-domain
string differs from the target-domain string under exact case-sensitive
comparison; in particular an edge whose two domain labels are the same word
with different casing is classified as cross-domain. -/
theorem is_cross_domain_iff_ne :
    (∀ e : GraphEdge, e.is_cross_domain = true ↔
      e.metadata.source_domain ≠ e.metadata.target_domain) ∧
    (GraphEdge.new_causal 1 2 3 "lbl" "Genomics" "genomics" [] 1
        "t").is_cross_domain = true := by
  constructor
  · intro e
    simp [GraphEdge.is_cross_domain]
  · decide

/-- C2: starting from a fresh `MultiIntentGraph`, any interleaving of
`add_node` and `add_edge` calls leaves `metadata.total_nodes` equal to the
number of distinct node identifiers inserted; re-adding an existing
identifier overwrites the stored node and leaves the count unchanged. -/
theorem total_nodes_distinct_ids (fid : Uuid) (bg : SarsCov2Graph)
    (now : String) (ops : List GraphOp) :
    (applyOps (MultiIntentGraph.new fid bg now) ops).metadata.total_nodes =
      (nodeIdsOf ops).dedup.length ∧
    (∀ (n : IntentNode) (now2 : String), n.id ∈ nodeIdsOf ops →
      ((applyOps (MultiIntentGraph.new fid bg now) ops).add_node n
          now2).metadata.total_nodes =
        (applyOps (MultiIntentGraph.new fid bg now) ops).metadata.total_nodes ∧
      lookupAssoc n.id
        ((applyOps (MultiIntentGraph.new fid bg now) ops).add_node n
          now2).intent_nodes = some n) := by
  have hinv : graphNodesInv (applyOps (MultiIntentGraph.new fid bg now) ops) :=
    applyOps_nodesInv ops _ ⟨by simp [MultiIntentGraph.new], by
      simp [MultiIntentGraph.new]⟩
  have hfin :
      (((applyOps (MultiIntentGraph.new fid bg now) ops).intent_nodes.map
          Prod.fst).toFinset) = (nodeIdsOf ops).toFinset := by
    rw [applyOps_keys_toFinset]
    simp [MultiIntentGraph.new]
  obtain ⟨hnodup, htotal⟩ := hinv
  have hlen :
      (applyOps (MultiIntentGraph.new fid bg now) ops).intent_nodes.length =
        (nodeIdsOf ops).dedup.length := by
    have h1 := List.toFinset_card_of_nodup hnodup
    rw [hfin] at h1
    rw [List.card_toFinset] at h1
    simpa [List.length_map] using h1.symm
  constructor
  · rw [htotal, hlen]
  · intro n now2 hmem
    have hkey : n.id ∈
        (applyOps (MultiIntentGraph.new fid bg now) ops).intent_nodes.map
          Prod.fst := by
      rw [← List.mem_toFinset, hfin, List.mem_toFinset]
      exact hmem
    constructor
    · simp only [MultiIntentGraph.add_node]
      rw [insertAssoc_length, if_pos hkey, htotal]
    · simp only [MultiIntentGraph.add_node]
      exact lookupAssoc_insertAssoc n.id n _

/-- C10: with `max_depth = 0` the depth guard rejects the initial one-node
path before the target check, so `find_paths` returns no paths at all, even
when the start and end identifiers coincide. -/
theorem find_paths_depth_zero_empty (g : MultiIntentGraph)
    (start_id end_id : Uuid) : g.find_paths start_id end_id 0 = [] := rfl

/-- C4: for `max_depth ≥ 1`, `find_paths(a, a, k)` returns exactly the
single-element path `[a]` when no self-loop edge exists on `a` (the search
records the path on reaching the target and does not explore past it). -/
theorem find_paths_self_singleton (g : MultiIntentGraph) (a : Uuid) (k : Nat)
    (hk : 1 ≤ k)
    (hself : ∀ e ∈ g.edgeValues, ¬(e.source_id = a ∧ e.target_id = a)) :
    g.find_paths a a k = [[a]] := by
  obtain ⟨m, rfl⟩ : ∃ m, k = m + 1 := ⟨k - 1, by omega⟩
  show dfsPaths g.edgeValues a (m + 1) (m + 1 + 1) a [a] [] = [[a]]
  simp [dfsPaths]

/-atom examples used by the concrete scenarios -/

def exVirus : VirusNode :=
  { id := 0, name := "SARS-CoV-2", genome_kb := 30 }

def exBase : SarsCov2Graph := SarsCov2Graph.new 0 exVirus

def c5edge1 : GraphEdge :=
  GraphEdge.new_causal 100 1 2 "A to B" "Genomics" "Immunology" [] (9 / 10)
    "t1"

def c5edge2 : GraphEdge :=
  GraphEdge.new_correlative 101 2 3 "B to C" "Treatment" "PublicHealth" []
    (7 / 10) "t2"

def c5graph : MultiIntentGraph :=
  ((MultiIntentGraph.new 10 exBase "t0").add_edge c5edge1 "t1").add_edge
    c5edge2 "t2"

/-- C5: on a graph holding exactly a causal edge A→B (domains
"Genomics"→"Immunology") and a correlative edge B→C (domains
"Treatment"→"PublicHealth"), `statistics()` reports one causal edge, one
correlative edge, and two cross-domain edges. -/
theorem statistics_two_edge_scenario :
    c5graph.statistics.causal_edges = 1 ∧
    c5graph.statistics.correlative_edges = 1 ∧
    c5graph.statistics.cross_domain_edges = 2 :=
  ⟨rfl, rfl, rfl⟩

/-! ### Path-enumeration soundness -/

/-- Two node identifiers are linked by some edge of the registry. -/
def isEdge (edges : List GraphEdge) (a b : Uuid) : Prop :=
  ∃ e ∈ edges, e.source_id = a ∧ e.target_id = b

lemma dfsPaths_sound (edges : List GraphEdge) (target : Uuid)
    (max_depth : Nat) :
    ∀ (fuel : Nat) (current : Uuid) (path visited : List Uuid)
      (q : List Uuid),
      q ∈ dfsPaths edges target max_depth fuel current path visited →
      path ≠ [] →
      path.getLast? = some current →
      (∀ x, x ∈ visited ↔ x ∈ path.dropLast) →
      path.Nodup →
      List.Chain' (isEdge edges) path →
      q.length ≤ max_depth ∧ q.Nodup ∧ q.head? = path.head? ∧
        q.getLast? = some target ∧ List.Chain' (isEdge edges) q := by
  intro fuel
  induction fuel with
  | zero =>
      intro current path visited q hq
      simp [dfsPaths] at hq
  | succ fuel ih =>
      intro current path visited q hq hpne hlast hvis hnodup hchain
      rw [dfsPaths] at hq
      by_cases hd : path.length > max_depth
      · rw [if_pos hd] at hq
        simp at hq
      · rw [if_neg hd] at hq
        by_cases ht : current = target
        · rw [if_pos ht] at hq
          simp only [List.mem_singleton] at hq
          subst hq
          refine ⟨by omega, hnodup, rfl, ?_, hchain⟩
          rw [hlast, ht]
        · rw [if_neg ht] at hq
          simp only [List.mem_flatMap, List.mem_filter, Bool.and_eq_true,
            decide_eq_true_eq] at hq
          obtain ⟨e, ⟨hemem, hsrc, htgt⟩, hrec⟩ := hq
          have hsplit : path.dropLast ++ [current] = path :=
            List.dropLast_append_getLast? current hlast
          have hmem_path : ∀ x, x ∈ path ↔ x = current ∨ x ∈ path.dropLast := by
            intro x
            conv_lhs => rw [← hsplit]
            simp [or_comm]
          have htnmem : e.target_id ∉ path := by
            intro hx
            rcases (hmem_path _).mp hx with h | h
            · exact htgt (by simp [h])
            · exact htgt (by simp [(hvis e.target_id).mpr h])
          have hvis' : ∀ x, x ∈ current :: visited ↔
              x ∈ (path ++ [e.target_id]).dropLast := by
            intro x
            rw [List.dropLast_concat, hmem_path x]
            simp [hvis x]
          have hnodup' : (path ++ [e.target_id]).Nodup := by
            rw [List.nodup_append]
            refine ⟨hnodup, List.nodup_singleton _, ?_⟩
            intro x hx hx'
            rw [List.mem_singleton] at hx'
            subst hx'
            exact htnmem hx
          have hchain' : List.Chain' (isEdge edges) (path ++ [e.target_id]) := by
            rw [List.chain'_append]
            refine ⟨hchain, List.chain'_singleton _, ?_⟩
            intro x hx y hy
            rw [hlast, Option.mem_some_iff] at hx
            simp only [List.head?_cons, Option.mem_some_iff] at hy
            subst hx
            subst hy
            exact ⟨e, hemem, hsrc, rfl⟩
          obtain ⟨hlen, hnd, hhead, hlastq, hch⟩ :=
            ih e.target_id (path ++ [e.target_id]) (current :: visited) q hrec
              (by simp) (by simp) hvis' hnodup' hchain'
          refine ⟨hlen, hnd, ?_, hlastq, hch⟩
          rw [hhead, List.head?_append_of_ne_nil path hpne]

/-- C1: every path returned by `find_paths(start_id, end_id, k)` has at most
`k` node identifiers, has no repeated node identifier, begins with
`start_id`, ends with `end_id`, and has each consecutive pair of nodes
linked by some edge in the edge registry. -/
theorem find_paths_sound (g : MultiIntentGraph) (start_id end_id : Uuid)
    (k : Nat) (q : List Uuid) (hq : q ∈ g.find_paths start_id end_id k) :
    q.length ≤ k ∧ q.Nodup ∧ q.head? = some start_id ∧
      q.getLast? = some end_id ∧ List.Chain' (isEdge g.edgeValues) q := by
  have := dfsPaths_sound g.edgeValues end_id k (k + 1) start_id [start_id] []
    q hq (by simp) (by simp) (by simp) (by simp) (List.chain'_singleton _)
  simpa using this

/-! ### Concrete instances for the witnesses -/

def exIntentNode (i : Uuid) : IntentNode :=
  { id := i
    intent := "transmissibility"
    domain := ResearchDomain.Genomics
    content := NodeContent.Variant { id := i, variant := "Omicron", mutations := [] }
    metadata :=
      { evidence_count := 1, confidence := 1, sources := [], created_at := "t" } }

def exEdge12 : GraphEdge :=
  GraphEdge.new_causal 200 1 2 "one to two" "Genomics" "Immunology" [] (4 / 5)
    "t"

def exGraph : MultiIntentGraph :=
  (MultiIntentGraph.new 11 exBase "t0").add_edge exEdge12 "t"

def c2ops : List GraphOp :=
  [GraphOp.addNode (exIntentNode 1) "t1",
   GraphOp.addEdge exEdge12 "t2",
   GraphOp.addNode (exIntentNode 2) "t3",
   GraphOp.addNode (exIntentNode 1) "t4"]

def c3step1 : ExplorationStep :=
  { id := 1
    step_number := 1
    hypothesis := HypothesisType.Transmissibility
    query := "q1"
    domains_explored := ["Genomics", "Virology"]
    evidence_found := 3
    confidence := 1
    timestamp := "t1" }

def c3step2 : ExplorationStep :=
  { id := 2
    step_number := 2
    hypothesis := HypothesisType.Transmissibility
    query := "q2"
    domains_explored := ["Virology", "Genomics"]
    evidence_found := 2
    confidence := 1
    timestamp := "t2" }

def c3trace : SerendipityTrace := buildTrace 1 "s" "q" "t0" [c3step1]

/-! ### Witnesses -/

/-- Witness for C1 at a concrete one-edge graph and the returned path
`[1, 2]`. -/
theorem find_paths_sound_witness :
    [1, 2] ∈ exGraph.find_paths 1 2 3 ∧
    ([1, 2] : List Uuid).length ≤ 3 ∧ ([1, 2] : List Uuid).Nodup ∧
    ([1, 2] : List Uuid).head? = some 1 ∧
    ([1, 2] : List Uuid).getLast? = some 2 ∧
    List.Chain' (isEdge exGraph.edgeValues) [1, 2] := by
  have h : [1, 2] ∈ exGraph.find_paths 1 2 3 := by decide
  exact ⟨h, find_paths_sound exGraph 1 2 3 [1, 2] h⟩

/-- Witness for C2 at a concrete operation sequence with identifiers
1, 2, 1 (one re-added). -/
theorem total_nodes_distinct_ids_witness :
    (applyOps (MultiIntentGraph.new 0 exBase "t0") c2ops).metadata.total_nodes =
      (nodeIdsOf c2ops).dedup.length ∧
    (exIntentNode 1).id ∈ nodeIdsOf c2ops ∧
    ((applyOps (MultiIntentGraph.new 0 exBase "t0") c2ops).add_node
        (exIntentNode 1) "t5").metadata.total_nodes =
      (applyOps (MultiIntentGraph.new 0 exBase "t0")
          c2ops).metadata.total_nodes ∧
    lookupAssoc (exIntentNode 1).id
      ((applyOps (MultiIntentGraph.new 0 exBase "t0") c2ops).add_node
          (exIntentNode 1) "t5").intent_nodes = some (exIntentNode 1) := by
  have h := total_nodes_distinct_ids 0 exBase "t0" c2ops
  have hm : (exIntentNode 1).id ∈ nodeIdsOf c2ops := by decide
  exact ⟨h.1, hm, (h.2 (exIntentNode 1) "t5" hm).1, (h.2 (exIntentNode 1) "t5" hm).2⟩

/-- Witness for C3: the second step reorders the same domain labels, and the
jump counter increases by exactly one. -/
theorem cross_domain_jumps_spec_witness :
    c3trace.steps.getLast? = some c3step1 ∧
    c3step1.domains_explored ≠ c3step2.domains_explored ∧
    (c3trace.add_step c3step2).cross_domain_jumps =
      c3trace.cross_domain_jumps + 1 := by
  have h := (cross_domain_jumps_spec c3trace c3step2).2 c3step1 rfl
  exact ⟨rfl, by decide, h.1 (by decide)⟩

/-- Witness for C4 at a concrete graph with one edge out of node 1 and no
self-loop. -/
theorem find_paths_self_singleton_witness :
    1 ≤ 2 ∧
    (∀ e ∈ exGraph.edgeValues, ¬(e.source_id = 1 ∧ e.target_id = 1)) ∧
    exGraph.find_paths 1 1 2 = [[1]] :=
  ⟨by decide, by decide,
    find_paths_self_singleton exGraph 1 2 (by decide) (by decide)⟩

/-- Witness for C6 at a concrete two-step trace whose steps share one
hypothesis type. -/
theorem diversity_score_uniform_zero_witness :
    (∀ s ∈ [c3step1, c3step1], s.hypothesis = HypothesisType.Transmissibility) ∧
    (buildTrace 1 "s" "q" "t0" [c3step1, c3step1]).diversity_score = 0 :=
  ⟨by decide,
    diversity_score_uniform_zero 1 "s" "q" "t0" [c3step1, c3step1]
      HypothesisType.Transmissibility (by decide)⟩

/-- Witness for C9: the invariant holds at a concrete one-step trace and is
preserved when a second step is added. -/
theorem trace_histogram_evidence_invariant_witness :
    traceInvariant c3trace ∧ traceInvariant (c3trace.add_step c3step2) := by
  have h1 : traceInvariant c3trace := by
    constructor
    · decide
    · decide
  exact ⟨h1, trace_histogram_evidence_invariant.2 c3trace c3step2 h1⟩

end SarsCov2KG
